import Mathlib

/-!
Formal model of the karpenter-core scheduling solver.

The development shallowly embeds the scheduling code of
`pkg/controllers/provisioning/scheduling/node.go` (the prospective `Node`
with `NewNode`, `Node.Add`, `Node.FinalizeScheduling`, the instance-type
filters, and the `Scheduler` with `Scheduler.add` and `Scheduler.Solve`).
Collaborating packages whose sources are not provided (the requirement-set
algebra, the resource algebra, host-port tracking, the topology tracker,
the preference relaxer, the work queue and the existing-node wrapper) are
modelled from the specification; the topology tracker and the relaxer are
kept fully parametric, so every theorem holds for every implementation of
those collaborators.

Machine bookkeeping notes: Go maps become association lists, the mutable
receiver of each Go method becomes an explicit value that is returned
(possibly unchanged) together with the result, the shared `*Topology`
pointer and the process-wide hostname counter are threaded explicitly, and
the unbounded `for` loop of `Solve` is given explicit fuel (theorems hold
for every fuel value).
-/

/-- Well-known label key for the node hostname (`v1.LabelHostname`). -/
def labelHostname : String := "kubernetes.io/hostname"

/-- Well-known label key for the topology zone (`v1.LabelTopologyZone`). -/
def labelTopologyZone : String := "topology.kubernetes.io/zone"

/-- Well-known label key for the capacity type (`v1alpha5.LabelCapacityType`). -/
def labelCapacityType : String := "karpenter.sh/capacity-type"

/-- Modelled from the spec: a cancellable context handle. Only the cancelled
flag is observable to the solver. -/
structure Ctx where
  cancelled : Bool

deriving instance DecidableEq, Repr for Ctx

/-- Modelled from the spec: a resource map (resource name to quantity, in
abstract integral units), the `v1.ResourceList` of the resource algebra. -/
abbrev ResourceList := List (String × Int)

/-- Quantity stored for a resource name, zero when absent (Go map read). -/
def rlGet : ResourceList → String → Int
  | [], _ => 0
  | kv :: rest, k => if kv.1 = k then kv.2 else rlGet rest k

/-- Optional lookup of a resource name (Go comma-ok map read). -/
def rlFind : ResourceList → String → Option Int
  | [], _ => none
  | kv :: rest, k => if kv.1 = k then some kv.2 else rlFind rest k

/-- Upsert of a resource quantity (Go map write). -/
def rlSet : ResourceList → String → Int → ResourceList
  | [], k, v => [(k, v)]
  | kv :: rest, k, v => if kv.1 = k then (k, v) :: rest else kv :: rlSet rest k v

/-- Modelled from the spec: `resources.Merge` — key-wise sum of resource maps
(the utils package is not among the provided sources). -/
def rlMerge (a b : ResourceList) : ResourceList :=
  b.foldl (fun acc kv => rlSet acc kv.1 (rlGet acc kv.1 + kv.2)) a

/-- Modelled from the spec: `resources.Fits` — every candidate quantity is at
most the corresponding total quantity. -/
def rlFits (candidate total : ResourceList) : Bool :=
  candidate.all fun kv => kv.2 ≤ rlGet total kv.1

/-- Modelled from the spec: fold one resource map into an accumulator taking
key-wise maxima (`resources.MaxResources` helper). -/
def rlMaxInto (acc : ResourceList) (rl : ResourceList) : ResourceList :=
  rl.foldl
    (fun a kv =>
      match rlFind a kv.1 with
      | some cur => rlSet a kv.1 (max cur kv.2)
      | none => a ++ [(kv.1, kv.2)])
    acc

/-- Modelled from the spec: `resources.MaxResources` — elementwise maximum of
a collection of resource maps. -/
def MaxResources (rls : List ResourceList) : ResourceList :=
  rls.foldl rlMaxInto []

/-- Modelled from the spec: feasible label values for one key, restricted to
the finite (In) fragment of the requirement algebra of §4.1; the claims under
verification do not depend on the cofinite operators. -/
structure Requirement where
  key : String
  values : List String

deriving instance DecidableEq, Repr for Requirement

/-- Modelled from the spec: a requirement set, a map from label key to the
requirement for that key (`scheduling.Requirements`). -/
abbrev Requirements := List Requirement

/-- Values recorded for a key, if the key is present. -/
def reqsGet : Requirements → String → Option (List String)
  | [], _ => none
  | q :: rest, k => if q.key = k then some q.values else reqsGet rest k

/-- Key-presence test (`Requirements.Has`). -/
def reqsHas (rs : Requirements) (k : String) : Bool :=
  (reqsGet rs k).isSome

/-- Intersection of two finite value sets. -/
def intersectVals (a b : List String) : List String :=
  a.filter fun v => b.contains v

/-- Modelled from the spec: `Requirements.Add` for one requirement —
intersect in place, inserting the key when it is new. -/
def reqsAdd : Requirements → Requirement → Requirements
  | [], r => [r]
  | q :: rest, r =>
    if q.key = r.key then { key := q.key, values := intersectVals q.values r.values } :: rest
    else q :: reqsAdd rest r

/-- Modelled from the spec: `Requirements.Add` over a list of requirements. -/
def reqsAddAll (rs : Requirements) (incoming : Requirements) : Requirements :=
  incoming.foldl reqsAdd rs

/-- Modelled from the spec: `NewRequirements(values...)` — a fresh set holding
the given requirements. -/
def NewRequirements (values : Requirements) : Requirements :=
  reqsAddAll [] values

/-- Modelled from the spec: `Requirements.Compatible` — for every key of the
incoming set that the receiver also constrains, the intersection of the two
value sets is nonempty. In the finite fragment this is also the semantics of
`Requirements.Intersects`. -/
def reqsCompatible (rs incoming : Requirements) : Bool :=
  incoming.all fun r =>
    match reqsGet rs r.key with
    | none => true
    | some vs => !(intersectVals vs r.values).isEmpty

/-- Modelled from the spec: `Requirements.Intersects`; in the finite fragment
it coincides with compatibility. -/
def reqsIntersects (rs incoming : Requirements) : Bool :=
  reqsCompatible rs incoming

/-- Deletion of a key from a requirement set (Go `delete` on the map). -/
def eraseReq : Requirements → String → Requirements
  | [], _ => []
  | q :: rest, k => if q.key = k then eraseReq rest k else q :: eraseReq rest k

/-- Modelled from the spec: a node taint. -/
structure Taint where
  key : String
  value : String
  effect : String

deriving instance DecidableEq, Repr for Taint

/-- Modelled from the spec: a pod toleration; an empty field is a wildcard. -/
structure Toleration where
  key : String
  value : String
  effect : String

deriving instance DecidableEq, Repr for Toleration

/-- Modelled from the spec: a host-port reservation (IP, port, protocol). -/
structure HostPort where
  ip : String
  port : Int
  protocol : String

deriving instance DecidableEq, Repr for HostPort

/-- Modelled from the spec: the slice of a pod the solver reads — requests,
tolerations, declared host ports, and node-affinity requirements (finite
fragment). -/
structure Pod where
  name : String
  requests : ResourceList
  tolerations : List Toleration
  hostPorts : List HostPort
  nodeSelectorRequirements : Requirements

deriving instance DecidableEq, Repr for Pod

/-- Modelled from the spec: `scheduling.NewPodRequirements` — the pod's
node-affinity expressed as a requirement set. -/
def NewPodRequirements (pod : Pod) : Requirements :=
  NewRequirements pod.nodeSelectorRequirements

/-- Modelled from the spec: whether one toleration tolerates one taint; each
stated field must agree, an empty field matches anything. -/
def toleratesTaint (tol : Toleration) (t : Taint) : Bool :=
  (tol.key = "" || tol.key = t.key)
    && (tol.value = "" || tol.value = t.value)
    && (tol.effect = "" || tol.effect = t.effect)

/-- Modelled from the spec: `Taints.Tolerates(pod)` — an error unless every
taint is tolerated by some toleration of the pod. -/
def taintsTolerates (taints : List Taint) (pod : Pod) : Option String :=
  if taints.all (fun t => pod.tolerations.any fun tol => toleratesTaint tol t) then none
  else some ("did not tolerate taint")

/-- Modelled from the spec: the host-port reservations already present on one
node (`scheduling.HostPortUsage`). -/
abbrev HostPortUsage := List HostPort

/-- Modelled from the spec: two host-port declarations collide when port and
protocol agree and the IPs overlap (0.0.0.0 overlaps every IP). -/
def hostPortConflicts (a b : HostPort) : Bool :=
  a.port = b.port && a.protocol = b.protocol
    && (a.ip = b.ip || a.ip = "0.0.0.0" || b.ip = "0.0.0.0")

/-- Modelled from the spec: `HostPortUsage.Validate` — fails when any declared
host port with a nonzero port collides with a reservation already present. -/
def hostPortUsageValidate (u : HostPortUsage) (pod : Pod) : Option String :=
  if pod.hostPorts.any (fun p => p.port ≠ 0 && u.any fun q => hostPortConflicts p q) then
    some ("host port conflict")
  else none

/-- Modelled from the spec: `HostPortUsage.Add` — absorb the pod's host
ports. The context argument is carried for signature fidelity; the original
uses it only for logging. -/
def hostPortUsageAdd (_ctx : Ctx) (u : HostPortUsage) (pod : Pod) : HostPortUsage :=
  u ++ pod.hostPorts

/-- Modelled from the spec: one (zone, capacity type, availability) offering
of an instance type. -/
structure Offering where
  Zone : String
  CapacityType : String
  Available : Bool

deriving instance DecidableEq, Repr for Offering

/-- Modelled from the spec: a cloud-provider instance type; `Overhead` stands
for the total of the system-reserved overhead (`Overhead.Total()`). -/
structure InstanceType where
  Name : String
  Capacity : ResourceList
  Overhead : ResourceList
  Requirements : Requirements
  Offerings : List Offering

deriving instance DecidableEq, Repr for InstanceType

/-- Source `compatible`: the instance type's requirements intersect the node
requirements. -/
def compatible (instanceType : InstanceType) (requirements : Requirements) : Bool :=
  reqsIntersects instanceType.Requirements requirements

/-- Source `fits`: the requests plus the instance type's own overhead fit in
its capacity. -/
def fits (instanceType : InstanceType) (requests : ResourceList) : Bool :=
  rlFits (rlMerge requests instanceType.Overhead) instanceType.Capacity

/-- Source `hasOffering`: some available offering is admitted by the zone and
capacity-type restrictions of the requirements. -/
def hasOffering (instanceType : InstanceType) (requirements : Requirements) : Bool :=
  (instanceType.Offerings.filter fun o => o.Available).any fun offering =>
    (!(reqsHas requirements labelTopologyZone)
        || ((reqsGet requirements labelTopologyZone).getD []).contains offering.Zone)
      && (!(reqsHas requirements labelCapacityType)
        || ((reqsGet requirements labelCapacityType).getD []).contains offering.CapacityType)

/-- Source `filterInstanceTypesByRequirements`. -/
def filterInstanceTypesByRequirements (instanceTypes : List InstanceType)
    (requirements : Requirements) (requests : ResourceList) : List InstanceType :=
  instanceTypes.filter fun instanceType =>
    compatible instanceType requirements && fits instanceType requests
      && hasOffering instanceType requirements

/-- Modelled from the spec: the interface of the topology tracker (§4.3). Its
source file is not among the provided sources, so the development is
parameterized over an arbitrary implementation with state type σ; the
theorems below hold for every implementation. `Update` returns the new state
together with an optional error that `Solve` only logs. -/
structure TopologyImpl (σ : Type) where
  AddRequirements : σ → Requirements → Requirements → Pod → Except String Requirements
  Record : σ → Pod → Requirements → σ
  Register : σ → String → String → σ
  Update : σ → Pod → σ × Option String

/-- Source `MachineTemplate`: the scheduling prototype for a provisioner. -/
structure MachineTemplate where
  ProvisionerName : String
  Requirements : Requirements
  Taints : List Taint
  StartupTaints : List Taint
  Requests : ResourceList
  InstanceTypeOptions : List InstanceType

deriving instance DecidableEq, Repr for MachineTemplate

/-- Source `Node` struct with the embedded `MachineTemplate` inlined; the
shared `*Topology` pointer is threaded explicitly through the operations. -/
structure Node where
  ProvisionerName : String
  Requirements : Requirements
  Taints : List Taint
  StartupTaints : List Taint
  Requests : ResourceList
  InstanceTypeOptions : List InstanceType
  Pods : List Pod
  hostPortUsage : HostPortUsage

deriving instance DecidableEq, Repr for Node

/-- Source `NewNode`: copy the template, generate the synthetic hostname from
the process-wide counter, register it with the topology, and install it as an
In-requirement. Returns the node, the updated topology state, and the updated
counter. -/
def NewNode {σ : Type} (T : TopologyImpl σ) (topo : σ) (nodeID : Nat)
    (machineTemplate : MachineTemplate) (daemonResources : ResourceList)
    (instanceTypes : List InstanceType) : Node × σ × Nat :=
  let newID := nodeID + 1
  let hostname := "hostname-placeholder-" ++ toString newID
  let topo2 := T.Register topo labelHostname hostname
  let reqs := reqsAdd (reqsAddAll (NewRequirements []) machineTemplate.Requirements)
    { key := labelHostname, values := [hostname] }
  ({ ProvisionerName := machineTemplate.ProvisionerName
     Requirements := reqs
     Taints := machineTemplate.Taints
     StartupTaints := machineTemplate.StartupTaints
     Requests := daemonResources
     InstanceTypeOptions := instanceTypes
     Pods := []
     hostPortUsage := [] }, topo2, newID)

/-- Result of an in-place `Add` on a node: the optional error, the receiver
after the call, and the topology state after the call. -/
structure AddResult (σ : Type) where
  err : Option String
  node : Node
  topo : σ

/-- Source `Node.Add`: check taints, host ports, requirement compatibility,
topology requirements and instance-type survival in order, short-circuiting
on the first failure; only on success update the pod list, instance types,
requests, requirements, topology record and host-port usage. -/
def Node.Add {σ : Type} (T : TopologyImpl σ) (topo : σ) (ctx : Ctx) (m : Node)
    (pod : Pod) : AddResult σ :=
  match taintsTolerates m.Taints pod with
  | some e => ⟨some e, m, topo⟩
  | none =>
  match hostPortUsageValidate m.hostPortUsage pod with
  | some e => ⟨some e, m, topo⟩
  | none =>
  let nodeRequirements := NewRequirements m.Requirements
  let podRequirements := NewPodRequirements pod
  if !reqsCompatible nodeRequirements podRequirements then
    ⟨some ("incompatible requirements"), m, topo⟩
  else
  let nodeRequirements2 := reqsAddAll nodeRequirements podRequirements
  match T.AddRequirements topo podRequirements nodeRequirements2 pod with
  | Except.error e => ⟨some e, m, topo⟩
  | Except.ok topologyRequirements =>
  if !reqsCompatible nodeRequirements2 topologyRequirements then
    ⟨some ("incompatible topology requirements"), m, topo⟩
  else
  let nodeRequirements3 := reqsAddAll nodeRequirements2 topologyRequirements
  let requests := rlMerge m.Requests pod.requests
  let instanceTypes := filterInstanceTypesByRequirements m.InstanceTypeOptions nodeRequirements3 requests
  if instanceTypes.isEmpty then
    ⟨some ("no instance type satisfied resources and requirements"), m, topo⟩
  else
    ⟨none,
     { m with
        Pods := m.Pods ++ [pod]
        InstanceTypeOptions := instanceTypes
        Requests := requests
        Requirements := nodeRequirements3
        hostPortUsage := hostPortUsageAdd ctx m.hostPortUsage pod },
     T.Record topo pod nodeRequirements3⟩

/-- Source `Node.FinalizeScheduling`: remove the synthetic hostname
requirement. -/
def Node.FinalizeScheduling (m : Node) : Node :=
  { m with Requirements := eraseReq m.Requirements labelHostname }

/-- Modelled from the spec: the existing-node wrapper (§4.6) — an in-flight
real node viewed for bin packing. Its taint list is the node's startup
taints, it has no instance-type list, and fitting is checked against the
node's known capacity. -/
structure ExistingNode where
  Name : String
  StartupTaints : List Taint
  Requirements : Requirements
  Capacity : ResourceList
  Requests : ResourceList
  Pods : List Pod
  hostPortUsage : HostPortUsage

deriving instance DecidableEq, Repr for ExistingNode

/-- Result of an in-place `Add` on an existing node. -/
structure ExAddResult (σ : Type) where
  err : Option String
  node : ExistingNode
  topo : σ

/-- Modelled from the spec: `ExistingNode.Add` — semantically identical to
`Node.Add` except that the taints are the startup taints and the
instance-type survival check is replaced by a fit check against the node's
capacity. -/
def ExistingNode.Add {σ : Type} (T : TopologyImpl σ) (topo : σ) (ctx : Ctx)
    (n : ExistingNode) (pod : Pod) : ExAddResult σ :=
  match taintsTolerates n.StartupTaints pod with
  | some e => ⟨some e, n, topo⟩
  | none =>
  match hostPortUsageValidate n.hostPortUsage pod with
  | some e => ⟨some e, n, topo⟩
  | none =>
  let nodeRequirements := NewRequirements n.Requirements
  let podRequirements := NewPodRequirements pod
  if !reqsCompatible nodeRequirements podRequirements then
    ⟨some ("incompatible requirements"), n, topo⟩
  else
  let nodeRequirements2 := reqsAddAll nodeRequirements podRequirements
  match T.AddRequirements topo podRequirements nodeRequirements2 pod with
  | Except.error e => ⟨some e, n, topo⟩
  | Except.ok topologyRequirements =>
  if !reqsCompatible nodeRequirements2 topologyRequirements then
    ⟨some ("incompatible topology requirements"), n, topo⟩
  else
  let nodeRequirements3 := reqsAddAll nodeRequirements2 topologyRequirements
  let requests := rlMerge n.Requests pod.requests
  if !rlFits requests n.Capacity then
    ⟨some ("exceeds node resources"), n, topo⟩
  else
    ⟨none,
     { n with
        Pods := n.Pods ++ [pod]
        Requests := requests
        Requirements := nodeRequirements3
        hostPortUsage := hostPortUsageAdd ctx n.hostPortUsage pod },
     T.Record topo pod nodeRequirements3⟩

/-- Events published through the recorder or the cluster-state interface. -/
inductive Event where
  | podFailedToSchedule (podName : String) (err : Option String)
  | nominatePod (podName : String) (nodeName : String)
  | nominateNodeForPod (nodeName : String)

deriving instance DecidableEq, Repr for Event

/-- Lookup in an association list keyed by strings (Go map read). -/
def assocFind {α : Type} : List (String × α) → String → Option α
  | [], _ => none
  | kv :: rest, k => if kv.1 = k then some kv.2 else assocFind rest k

/-- Upsert in an association list keyed by strings (Go map write). -/
def assocSet {α : Type} : List (String × α) → String → α → List (String × α)
  | [], k, v => [(k, v)]
  | kv :: rest, k, v => if kv.1 = k then (k, v) :: rest else kv :: assocSet rest k v

/-- Source `Scheduler` struct; the recorder and the cluster nomination calls
are modelled as an accumulating event list, the context field is passed to
the operations explicitly, and the kube client (used only outside the
verified operations) is omitted. -/
structure Scheduler (σ : Type) where
  newNodes : List Node
  existingNodes : List ExistingNode
  machineTemplates : List MachineTemplate
  remainingResources : List (String × ResourceList)
  instanceTypes : List (String × List InstanceType)
  daemonOverhead : MachineTemplate → ResourceList
  topo : σ
  nodeID : Nat
  simulationMode : Bool
  events : List Event

/-- Source `subtractMax`: remaining resources after subtracting, per key of
the remaining map, the maximum capacity across the given instance types. -/
def subtractMax (remaining : ResourceList) (instanceTypes : List InstanceType) : ResourceList :=
  if instanceTypes.isEmpty then remaining
  else
    let itResources := MaxResources (instanceTypes.map fun it => it.Capacity)
    remaining.map fun kv => (kv.1, kv.2 - rlGet itResources kv.1)

/-- Source `filterByRemainingResources`: drop every instance type whose
capacity exceeds the remaining quantity on some resource of the budget. -/
def filterByRemainingResources (instanceTypes : List InstanceType)
    (remaining : ResourceList) : List InstanceType :=
  instanceTypes.filter fun it =>
    remaining.all fun kv => !(rlGet it.Capacity kv.1 > kv.2)

/-- Insertion step of the ascending sort by pod count. -/
def insertByPodCount (n : Node) : List Node → List Node
  | [] => [n]
  | m :: rest =>
    if n.Pods.length < m.Pods.length then n :: m :: rest else m :: insertByPodCount n rest

/-- Sort of the prospective-node list ascending by pod count (the source uses
`sort.Slice` with the comparison on `len(Pods)`). -/
def sortByPodCount : List Node → List Node
  | [] => []
  | n :: rest => insertByPodCount n (sortByPodCount rest)

/-- Source `Scheduler.add`, first loop: try each existing in-flight node in
insertion order; the first node that accepts the pod is updated in place. -/
def tryExistingNodes {σ : Type} (T : TopologyImpl σ) (ctx : Ctx) (pod : Pod) :
    List ExistingNode → σ → Option (List ExistingNode × σ)
  | [], _ => none
  | n :: rest, topo =>
    match ExistingNode.Add T topo ctx n pod with
    | ⟨none, n2, topo2⟩ => some (n2 :: rest, topo2)
    | ⟨some _, n2, topo2⟩ =>
      match tryExistingNodes T ctx pod rest topo2 with
      | some p => some (n2 :: p.1, p.2)
      | none => none

/-- Source `Scheduler.add`, second loop: try each prospective node of the
(previously sorted) list; the first node that accepts the pod is updated in
place. -/
def tryNewNodes {σ : Type} (T : TopologyImpl σ) (ctx : Ctx) (pod : Pod) :
    List Node → σ → Option (List Node × σ)
  | [], _ => none
  | n :: rest, topo =>
    match Node.Add T topo ctx n pod with
    | ⟨none, n2, topo2⟩ => some (n2 :: rest, topo2)
    | ⟨some _, n2, topo2⟩ =>
      match tryNewNodes T ctx pod rest topo2 with
      | some p => some (n2 :: p.1, p.2)
      | none => none

/-- Outcome of the template loop of `Scheduler.add`: the accepted new node if
any, the topology state and hostname counter after all attempts (failed
constructions leave their hostname registrations behind), the remaining
resources, and the accumulated per-template errors. -/
structure TemplatesResult (σ : Type) where
  placed : Option Node
  topo : σ
  nodeID : Nat
  remainingResources : List (String × ResourceList)
  errs : List String

/-- Source `Scheduler.add`, third loop: for each machine template in
declaration order, filter its instance types by the provisioner's remaining
budget when one is configured (skipping the template when nothing survives),
construct a new node and try to add the pod; the first template whose node
accepts wins, and the budget is decremented pessimistically. -/
def tryTemplates {σ : Type} (T : TopologyImpl σ) (ctx : Ctx)
    (instanceTypesMap : List (String × List InstanceType))
    (daemonOverhead : MachineTemplate → ResourceList) (pod : Pod) :
    List MachineTemplate → σ → Nat → List (String × ResourceList) → List String →
    TemplatesResult σ
  | [], topo, nid, remaining, errs => ⟨none, topo, nid, remaining, errs⟩
  | t :: rest, topo, nid, remaining, errs =>
    let available := (assocFind instanceTypesMap t.ProvisionerName).getD []
    let budgeted : Option (List InstanceType) :=
      match assocFind remaining t.ProvisionerName with
      | some rem =>
        let filtered := filterByRemainingResources available rem
        if filtered.isEmpty then none else some filtered
      | none => some available
    match budgeted with
    | none =>
      tryTemplates T ctx instanceTypesMap daemonOverhead pod rest topo nid remaining
        (errs ++ ["all available instance types exceed provisioner limits"])
    | some its =>
      let r := NewNode T topo nid t (daemonOverhead t) its
      let ar := Node.Add T r.2.1 ctx r.1 pod
      match ar.err with
      | some e =>
        tryTemplates T ctx instanceTypesMap daemonOverhead pod rest ar.topo r.2.2 remaining
          (errs ++ ["incompatible with provisioner " ++ t.ProvisionerName ++ ", " ++ e])
      | none =>
        ⟨some ar.node, ar.topo, r.2.2,
         assocSet remaining t.ProvisionerName
           (subtractMax ((assocFind remaining t.ProvisionerName).getD []) ar.node.InstanceTypeOptions),
         errs⟩

/-- Combination of the per-template errors (`multierr`): nil when no error
was appended, which happens exactly when the template list was empty. -/
def joinErrs : List String → Option String
  | [] => none
  | e :: rest => some (String.intercalate ("; ") (e :: rest))

/-- Result of `Scheduler.add`: the scheduler after the call and the error. -/
structure SchedAddResult (σ : Type) where
  sched : Scheduler σ
  err : Option String

/-- Source `Scheduler.add`: existing nodes in insertion order, then the
prospective nodes after the in-place sort by pod count, then the machine
templates in declaration order; an accepted template's node is appended to
the prospective-node list. Note that the sort only happens when no existing
node accepted, and persists even when everything rejects. -/
def Scheduler.add {σ : Type} (T : TopologyImpl σ) (ctx : Ctx) (s : Scheduler σ)
    (pod : Pod) : SchedAddResult σ :=
  match tryExistingNodes T ctx pod s.existingNodes s.topo with
  | some r => ⟨{ s with existingNodes := r.1, topo := r.2 }, none⟩
  | none =>
  let sorted := sortByPodCount s.newNodes
  match tryNewNodes T ctx pod sorted s.topo with
  | some r => ⟨{ s with newNodes := r.1, topo := r.2 }, none⟩
  | none =>
  let tr := tryTemplates T ctx s.instanceTypes s.daemonOverhead pod s.machineTemplates
    s.topo s.nodeID s.remainingResources []
  match tr.placed with
  | some node =>
    ⟨{ s with
        newNodes := sorted ++ [node]
        topo := tr.topo
        nodeID := tr.nodeID
        remainingResources := tr.remainingResources }, none⟩
  | none =>
    ⟨{ s with
        newNodes := sorted
        topo := tr.topo
        nodeID := tr.nodeID
        remainingResources := tr.remainingResources }, joinErrs tr.errs⟩

/-- Modelled from the spec: the work queue of `Solve` — pending pods in FIFO
order plus the pods that ended unschedulable this round. -/
structure Queue where
  pending : List Pod
  failed : List Pod

deriving instance DecidableEq, Repr for Queue

/-- Modelled from the spec: `NewQueue` starts with the whole batch pending. -/
def NewQueue (pods : List Pod) : Queue := ⟨pods, []⟩

/-- Modelled from the spec: pop the next pending pod. -/
def Queue.Pop (q : Queue) : Option (Pod × Queue) :=
  match q.pending with
  | [] => none
  | p :: rest => some (p, ⟨rest, q.failed⟩)

/-- Modelled from the spec: a relaxed pod is re-pushed to the back; a pod
that could not be relaxed is retained as permanently unschedulable. -/
def Queue.Push (q : Queue) (pod : Pod) (relaxed : Bool) : Queue :=
  if relaxed then ⟨q.pending ++ [pod], q.failed⟩ else ⟨q.pending, q.failed ++ [pod]⟩

/-- Modelled from the spec: the pods that failed to schedule this round. -/
def Queue.List (q : Queue) : List Pod := q.failed

/-- Per-pod error map of `Solve` (keyed by pod name). -/
abbrev ErrMap := List (String × Option String)

/-- Map write for the per-pod error map. -/
def errMapSet : ErrMap → String → Option String → ErrMap
  | [], k, v => [(k, v)]
  | kv :: rest, k, v => if kv.1 = k then (k, v) :: rest else kv :: errMapSet rest k v

/-- Map read for the per-pod error map. -/
def errMapGet : ErrMap → String → Option String
  | [], _ => none
  | kv :: rest, k => if kv.1 = k then kv.2 else errMapGet rest k

/-- Source `recordSchedulingResults`: publish a failure event per pod that
remained unschedulable and, for every existing node with nominated pods, a
node nomination plus one nomination event per pod. The log-only bookkeeping
of the source has no observable effect and is omitted. -/
def recordSchedulingResults {σ : Type} (s : Scheduler σ) (_pods : List Pod)
    (failedToSchedule : List Pod) (errors : ErrMap) : Scheduler σ :=
  let failureEvents := failedToSchedule.map fun p =>
    Event.podFailedToSchedule p.name (errMapGet errors p.name)
  let nodeEvents := s.existingNodes.foldl
    (fun acc node =>
      acc ++ (if node.Pods.length > 0 then [Event.nominateNodeForPod node.Name] else [])
        ++ node.Pods.map fun p => Event.nominatePod p.name node.Name)
    []
  { s with events := s.events ++ failureEvents ++ nodeEvents }

/-- State after the scheduling loop of `Solve`. -/
structure LoopResult (σ : Type) where
  sched : Scheduler σ
  queue : Queue
  errors : ErrMap

/-- Source `Solve`, main loop (explicit fuel): pop a pod, record the outcome
of `add` in the error map; on failure relax the pod, re-pushing it and
updating the topology when a relaxation step applied (a topology update
error is only logged), otherwise retain it as unschedulable. -/
def solveLoop {σ : Type} (T : TopologyImpl σ) (relax : Pod → Option Pod) (ctx : Ctx) :
    Nat → Scheduler σ → Queue → ErrMap → LoopResult σ
  | 0, s, q, errors => ⟨s, q, errors⟩
  | fuel + 1, s, q, errors =>
    match q.Pop with
    | none => ⟨s, q, errors⟩
    | some pq =>
      let pod := pq.1
      let q1 := pq.2
      let r := Scheduler.add T ctx s pod
      let errors1 := errMapSet errors pod.name r.err
      match r.err with
      | none => solveLoop T relax ctx fuel r.sched q1 errors1
      | some _ =>
        match relax pod with
        | some pod2 =>
          let tu := T.Update r.sched.topo pod2
          solveLoop T relax ctx fuel { r.sched with topo := tu.1 } (q1.Push pod2 true) errors1
        | none =>
          solveLoop T relax ctx fuel r.sched (q1.Push pod false) errors1

/-- Return value of `Solve`: the prospective nodes, the existing nodes, the
returned error, and the final scheduler state (carrying the published
events). -/
structure SolveResult (σ : Type) where
  nodes : List Node
  existingNodes : List ExistingNode
  err : Option String
  final : Scheduler σ

/-- Source `Scheduler.Solve`: run the loop over the batch, finalize every
prospective node, record the scheduling results unless in simulation mode,
and return the nodes with a nil error. -/
def Scheduler.Solve {σ : Type} (T : TopologyImpl σ) (relax : Pod → Option Pod)
    (fuel : Nat) (s : Scheduler σ) (ctx : Ctx) (pods : List Pod) : SolveResult σ :=
  let lr := solveLoop T relax ctx fuel s (NewQueue pods) []
  let s1 := { lr.sched with newNodes := lr.sched.newNodes.map Node.FinalizeScheduling }
  let s2 := if s1.simulationMode then s1
    else recordSchedulingResults s1 pods lr.queue.List lr.errors
  ⟨s2.newNodes, s2.existingNodes, none, s2⟩

/-- Trivial topology implementation over the unit state, used to instantiate
the parametric theorems on concrete inputs. -/
def unitTopology : TopologyImpl Unit where
  AddRequirements := fun _ _ _ _ => Except.ok []
  Record := fun _ _ _ => ()
  Register := fun _ _ _ => ()
  Update := fun _ _ => ((), none)

/-- Spec-side reading of C3: try the elements of a list in order with a
stateful attempt; the first element that accepts is replaced by its updated
version, while rejected attempts leave no trace — neither on the element nor
on the carried state. -/
def placeFirst {α σ : Type} (attempt : α → σ → Option String × α × σ) :
    List α → σ → Option (List α × σ)
  | [], _ => none
  | x :: xs, st =>
    let r := attempt x st
    match r.1 with
    | none => some (r.2.1 :: xs, r.2.2)
    | some _ => (placeFirst attempt xs st).map fun p => (x :: p.1, p.2)

/-- Spec-side reading of C3: the instance types available to a template after
applying the provisioner's remaining budget; `none` when a budget is
configured and no instance type survives it (the template is skipped). -/
def budgetedInstanceTypes (instanceTypesMap : List (String × List InstanceType))
    (remaining : List (String × ResourceList)) (t : MachineTemplate) :
    Option (List InstanceType) :=
  let available := (assocFind instanceTypesMap t.ProvisionerName).getD []
  match assocFind remaining t.ProvisionerName with
  | some rem =>
    let filtered := filterByRemainingResources available rem
    if filtered.isEmpty then none else some filtered
  | none => some available

/-- Spec-side reading of C3: the outcome of attempting one machine template. -/
inductive TemplateAttempt (σ : Type) where
  | skip (err : String) (topo : σ) (nodeID : Nat)
  | reject (err : String) (topo : σ) (nodeID : Nat)
  | accept (node : Node) (topo : σ) (nodeID : Nat)

/-- Spec-side reading of C3: attempt one template — skip it when the budget
leaves no instance type, otherwise construct a prospective node from the
budget-filtered list and try the pod on it. Skipped and rejecting attempts
still advance the hostname counter and topology registrations exactly as the
construction they performed did. -/
def attemptTemplate {σ : Type} (T : TopologyImpl σ) (ctx : Ctx)
    (instanceTypesMap : List (String × List InstanceType))
    (daemonOverhead : MachineTemplate → ResourceList) (pod : Pod)
    (remaining : List (String × ResourceList)) (t : MachineTemplate)
    (topo : σ) (nid : Nat) : TemplateAttempt σ :=
  match budgetedInstanceTypes instanceTypesMap remaining t with
  | none => TemplateAttempt.skip ("all available instance types exceed provisioner limits") topo nid
  | some its =>
    let r := NewNode T topo nid t (daemonOverhead t) its
    let ar := Node.Add T r.2.1 ctx r.1 pod
    match ar.err with
    | some e =>
      TemplateAttempt.reject ("incompatible with provisioner " ++ t.ProvisionerName ++ ", " ++ e)
        ar.topo r.2.2
    | none => TemplateAttempt.accept ar.node ar.topo r.2.2

/-- Spec-side reading of C3: walk the machine templates in declaration order;
the first template whose node accepts the pod wins and its provisioner's
budget is decremented by the elementwise maximum capacity of the surviving
instance types. -/
def walkTemplates {σ : Type} (T : TopologyImpl σ) (ctx : Ctx)
    (instanceTypesMap : List (String × List InstanceType))
    (daemonOverhead : MachineTemplate → ResourceList) (pod : Pod)
    (remaining : List (String × ResourceList)) :
    List MachineTemplate → σ → Nat → List String → TemplatesResult σ
  | [], topo, nid, errs => ⟨none, topo, nid, remaining, errs⟩
  | t :: rest, topo, nid, errs =>
    match attemptTemplate T ctx instanceTypesMap daemonOverhead pod remaining t topo nid with
    | TemplateAttempt.skip e topo2 nid2 =>
      walkTemplates T ctx instanceTypesMap daemonOverhead pod remaining rest topo2 nid2 (errs ++ [e])
    | TemplateAttempt.reject e topo2 nid2 =>
      walkTemplates T ctx instanceTypesMap daemonOverhead pod remaining rest topo2 nid2 (errs ++ [e])
    | TemplateAttempt.accept node topo2 nid2 =>
      ⟨some node, topo2, nid2,
       assocSet remaining t.ProvisionerName
         (subtractMax ((assocFind remaining t.ProvisionerName).getD []) node.InstanceTypeOptions),
       errs⟩

/-- Spec-side reading of C3 assembled: each existing in-flight node in
insertion order; then each prospective node after sorting the prospective
list ascending by pod count; then, only when all of those reject, the
machine templates in declaration order with budget-filtered instance types;
the first template whose node accepts wins and that node is appended to the
(sorted) prospective-node list. -/
def Scheduler.addSpec {σ : Type} (T : TopologyImpl σ) (ctx : Ctx) (s : Scheduler σ)
    (pod : Pod) : SchedAddResult σ :=
  match placeFirst (fun n st =>
      let r := ExistingNode.Add T st ctx n pod
      (r.err, r.node, r.topo)) s.existingNodes s.topo with
  | some p => ⟨{ s with existingNodes := p.1, topo := p.2 }, none⟩
  | none =>
  let sorted := sortByPodCount s.newNodes
  match placeFirst (fun n st =>
      let r := Node.Add T st ctx n pod
      (r.err, r.node, r.topo)) sorted s.topo with
  | some p => ⟨{ s with newNodes := p.1, topo := p.2 }, none⟩
  | none =>
  let tr := walkTemplates T ctx s.instanceTypes s.daemonOverhead pod s.remainingResources
    s.machineTemplates s.topo s.nodeID []
  match tr.placed with
  | some node =>
    ⟨{ s with
        newNodes := sorted ++ [node]
        topo := tr.topo
        nodeID := tr.nodeID
        remainingResources := tr.remainingResources }, none⟩
  | none =>
    ⟨{ s with
        newNodes := sorted
        topo := tr.topo
        nodeID := tr.nodeID
        remainingResources := tr.remainingResources }, joinErrs tr.errs⟩

/-- Frame lemma for `Node.Add`: on any error the receiver and the topology
state come back exactly as they went in. -/
theorem nodeAdd_frame {σ : Type} (T : TopologyImpl σ) (topo : σ) (ctx : Ctx)
    (m : Node) (pod : Pod) (e : String)
    (h : (Node.Add T topo ctx m pod).err = some e) :
    (Node.Add T topo ctx m pod).node = m ∧ (Node.Add T topo ctx m pod).topo = topo := by
  unfold Node.Add at h ⊢
  simp only [] at h ⊢
  repeat' split at h
  all_goals simp_all

/-- Frame lemma for `ExistingNode.Add`: on any error the receiver and the
topology state come back exactly as they went in. -/
theorem existingAdd_frame {σ : Type} (T : TopologyImpl σ) (topo : σ) (ctx : Ctx)
    (n : ExistingNode) (pod : Pod) (e : String)
    (h : (ExistingNode.Add T topo ctx n pod).err = some e) :
    (ExistingNode.Add T topo ctx n pod).node = n
      ∧ (ExistingNode.Add T topo ctx n pod).topo = topo := by
  unfold ExistingNode.Add at h ⊢
  simp only [] at h ⊢
  repeat' split at h
  all_goals simp_all

/-- Equation between the source transcription of the existing-node loop and
the spec-side `placeFirst` reading: because a rejected `Add` leaves both the
node and the topology state untouched (frame lemma), scanning with the
carried state is the same as restarting each attempt from the entry state. -/
theorem tryExistingNodes_eq_placeFirst {σ : Type} (T : TopologyImpl σ) (ctx : Ctx) (pod : Pod)
    (ns : List ExistingNode) (topo : σ) :
    tryExistingNodes T ctx pod ns topo =
      placeFirst (fun n st =>
        let r := ExistingNode.Add T st ctx n pod
        (r.err, r.node, r.topo)) ns topo := by
  induction ns generalizing topo with
  | nil => rfl
  | cons n rest ih =>
    unfold tryExistingNodes placeFirst
    cases hr : ExistingNode.Add T topo ctx n pod with
    | mk err node topo2 =>
      cases err with
      | none => simp [hr]
      | some e =>
        have hf := existingAdd_frame T topo ctx n pod e (by rw [hr])
        rw [hr] at hf
        simp only [] at hf
        simp only [hr, ih, hf.1, hf.2]
        cases placeFirst (fun n st =>
          let r := ExistingNode.Add T st ctx n pod
          (r.err, r.node, r.topo)) rest topo <;> simp

/-- Equation between the source transcription of the prospective-node loop
and the spec-side `placeFirst` reading. -/
theorem tryNewNodes_eq_placeFirst {σ : Type} (T : TopologyImpl σ) (ctx : Ctx) (pod : Pod)
    (ns : List Node) (topo : σ) :
    tryNewNodes T ctx pod ns topo =
      placeFirst (fun n st =>
        let r := Node.Add T st ctx n pod
        (r.err, r.node, r.topo)) ns topo := by
  induction ns generalizing topo with
  | nil => rfl
  | cons n rest ih =>
    unfold tryNewNodes placeFirst
    cases hr : Node.Add T topo ctx n pod with
    | mk err node topo2 =>
      cases err with
      | none => simp [hr]
      | some e =>
        have hf := nodeAdd_frame T topo ctx n pod e (by rw [hr])
        rw [hr] at hf
        simp only [] at hf
        simp only [hr, ih, hf.1, hf.2]
        cases placeFirst (fun n st =>
          let r := Node.Add T st ctx n pod
          (r.err, r.node, r.topo)) rest topo <;> simp

/-- Equation between the source transcription of the template loop and the
spec-side walk over `attemptTemplate`. -/
theorem tryTemplates_eq_walkTemplates {σ : Type} (T : TopologyImpl σ) (ctx : Ctx)
    (instanceTypesMap : List (String × List InstanceType))
    (daemonOverhead : MachineTemplate → ResourceList) (pod : Pod)
    (ts : List MachineTemplate) (topo : σ) (nid : Nat)
    (remaining : List (String × ResourceList)) (errs : List String) :
    tryTemplates T ctx instanceTypesMap daemonOverhead pod ts topo nid remaining errs =
      walkTemplates T ctx instanceTypesMap daemonOverhead pod remaining ts topo nid errs := by
  induction ts generalizing topo nid errs with
  | nil => rfl
  | cons t rest ih =>
    unfold tryTemplates walkTemplates attemptTemplate budgetedInstanceTypes
    simp only []
    cases hb : assocFind remaining t.ProvisionerName with
    | none =>
      simp only [hb]
      cases ha : (Node.Add T
          (NewNode T topo nid t (daemonOverhead t)
            ((assocFind instanceTypesMap t.ProvisionerName).getD [])).2.1 ctx
          (NewNode T topo nid t (daemonOverhead t)
            ((assocFind instanceTypesMap t.ProvisionerName).getD [])).1 pod).err with
      | none => simp [ha]
      | some e => simp [ha, ih]
    | some rem =>
      simp only [hb]
      by_cases hf : (filterByRemainingResources
          ((assocFind instanceTypesMap t.ProvisionerName).getD []) rem).isEmpty
      · simp [hf, ih]
      · simp only [hf, if_neg, Bool.false_eq_true, ite_false]
        cases ha : (Node.Add T
            (NewNode T topo nid t (daemonOverhead t)
              (filterByRemainingResources
                ((assocFind instanceTypesMap t.ProvisionerName).getD []) rem)).2.1 ctx
            (NewNode T topo nid t (daemonOverhead t)
              (filterByRemainingResources
                ((assocFind instanceTypesMap t.ProvisionerName).getD []) rem)).1 pod).err with
        | none => simp [ha]
        | some e => simp [ha, ih]

/-- Context independence of the existing-node loop: the context is never
consulted by any check. -/
theorem tryExistingNodes_ctx {σ : Type} (T : TopologyImpl σ) (ctx ctx2 : Ctx) (pod : Pod)
    (ns : List ExistingNode) (topo : σ) :
    tryExistingNodes T ctx pod ns topo = tryExistingNodes T ctx2 pod ns topo := by
  induction ns generalizing topo with
  | nil => rfl
  | cons n rest ih =>
    have hAdd : ∀ (st : σ) (x : ExistingNode),
        ExistingNode.Add T st ctx x pod = ExistingNode.Add T st ctx2 x pod := fun _ _ => rfl
    unfold tryExistingNodes
    simp only [hAdd, ih]

/-- Context independence of the prospective-node loop. -/
theorem tryNewNodes_ctx {σ : Type} (T : TopologyImpl σ) (ctx ctx2 : Ctx) (pod : Pod)
    (ns : List Node) (topo : σ) :
    tryNewNodes T ctx pod ns topo = tryNewNodes T ctx2 pod ns topo := by
  induction ns generalizing topo with
  | nil => rfl
  | cons n rest ih =>
    have hAdd : ∀ (st : σ) (x : Node),
        Node.Add T st ctx x pod = Node.Add T st ctx2 x pod := fun _ _ => rfl
    unfold tryNewNodes
    simp only [hAdd, ih]

/-- Context independence of the template loop. -/
theorem tryTemplates_ctx {σ : Type} (T : TopologyImpl σ) (ctx ctx2 : Ctx)
    (instanceTypesMap : List (String × List InstanceType))
    (daemonOverhead : MachineTemplate → ResourceList) (pod : Pod)
    (ts : List MachineTemplate) (topo : σ) (nid : Nat)
    (remaining : List (String × ResourceList)) (errs : List String) :
    tryTemplates T ctx instanceTypesMap daemonOverhead pod ts topo nid remaining errs =
      tryTemplates T ctx2 instanceTypesMap daemonOverhead pod ts topo nid remaining errs := by
  induction ts generalizing topo nid errs with
  | nil => rfl
  | cons t rest ih =>
    have hAdd : ∀ (st : σ) (x : Node),
        Node.Add T st ctx x pod = Node.Add T st ctx2 x pod := fun _ _ => rfl
    unfold tryTemplates
    simp only [hAdd, ih]

/-- Context independence of one `Scheduler.add` call. -/
theorem schedulerAdd_ctx {σ : Type} (T : TopologyImpl σ) (ctx ctx2 : Ctx)
    (s : Scheduler σ) (pod : Pod) :
    Scheduler.add T ctx s pod = Scheduler.add T ctx2 s pod := by
  unfold Scheduler.add
  simp only [tryExistingNodes_ctx T ctx ctx2 pod, tryNewNodes_ctx T ctx ctx2 pod,
    tryTemplates_ctx T ctx ctx2]

/-- Context independence of the scheduling loop. -/
theorem solveLoop_ctx {σ : Type} (T : TopologyImpl σ) (relax : Pod → Option Pod)
    (ctx ctx2 : Ctx) (fuel : Nat) : ∀ (s : Scheduler σ) (q : Queue) (errors : ErrMap),
    solveLoop T relax ctx fuel s q errors = solveLoop T relax ctx2 fuel s q errors := by
  induction fuel with
  | zero => intro s q errors; rfl
  | succ fuel ih =>
    intro s q errors
    unfold solveLoop
    cases hq : q.Pop with
    | none => rfl
    | some pq =>
      simp only [hq, schedulerAdd_ctx T ctx ctx2, ih]

/-- Context independence of a whole `Solve` call. -/
theorem solve_ctx {σ : Type} (T : TopologyImpl σ) (relax : Pod → Option Pod) (fuel : Nat)
    (s : Scheduler σ) (ctx ctx2 : Ctx) (pods : List Pod) :
    Scheduler.Solve T relax fuel s ctx pods = Scheduler.Solve T relax fuel s ctx2 pods := by
  unfold Scheduler.Solve
  rw [solveLoop_ctx T relax ctx ctx2 fuel s (NewQueue pods) []]

/-- Erasing a key from a requirement set removes that key. -/
theorem reqsGet_eraseReq_self (rs : Requirements) (k : String) :
    reqsGet (eraseReq rs k) k = none := by
  induction rs with
  | nil => rfl
  | cons q rest ih =>
    unfold eraseReq
    by_cases h : q.key = k
    · simp [h, ih]
    · simp [reqsGet, h, ih]

/-- Erasing a key from a requirement set leaves every other key untouched. -/
theorem reqsGet_eraseReq_ne (rs : Requirements) (k k2 : String) (h : k2 ≠ k) :
    reqsGet (eraseReq rs k) k2 = reqsGet rs k2 := by
  induction rs with
  | nil => rfl
  | cons q rest ih =>
    by_cases hq : q.key = k
    · have h2 : q.key ≠ k2 := fun hc => h (hc.symm.trans hq)
      simp only [eraseReq, reqsGet, if_pos hq, if_neg h2]
      exact ih
    · by_cases hq2 : q.key = k2
      · simp only [eraseReq, reqsGet, if_neg hq, if_pos hq2]
      · simp only [eraseReq, reqsGet, if_neg hq, if_neg hq2]
        exact ih

/-- The prospective nodes returned by `Solve` are exactly the loop's
prospective nodes after finalization. -/
theorem solve_nodes_eq_map_finalize {σ : Type} (T : TopologyImpl σ)
    (relax : Pod → Option Pod) (fuel : Nat) (s : Scheduler σ) (ctx : Ctx) (pods : List Pod) :
    (Scheduler.Solve T relax fuel s ctx pods).nodes =
      (solveLoop T relax ctx fuel s (NewQueue pods) []).sched.newNodes.map
        Node.FinalizeScheduling := by
  unfold Scheduler.Solve
  simp only []
  split <;> rfl

/-- A cancelled context. -/
def ctxCancelled : Ctx := ⟨true⟩

/-- A live context. -/
def ctxLive : Ctx := ⟨false⟩

/-- A relaxer with no applicable step (every soft constraint already gone). -/
def relaxNone : Pod → Option Pod := fun _ => none

/-- A dedicated-workload taint used by the concrete scenarios. -/
def taint0 : Taint := ⟨"dedicated", "infra", "NoSchedule"⟩

/-- A small instance type with one available offering. -/
def it0 : InstanceType :=
  ⟨"small", [("cpu", 4000)], [("cpu", 100)], [], [⟨"z1", "on-demand", true⟩]⟩

/-- A pod with a small cpu request, no tolerations and no constraints. -/
def pod0 : Pod := ⟨"pod-a", [("cpu", 100)], [], [], []⟩

/-- A machine template that carries the dedicated taint. -/
def template0 : MachineTemplate := ⟨"default", [], [taint0], [], [], []⟩

/-- A prospective node built over the tainted template, ready for a direct
`Node.Add` call. -/
def node0 : Node :=
  { ProvisionerName := "default"
    Requirements := [⟨labelHostname, ["hostname-placeholder-1"]⟩]
    Taints := [taint0]
    StartupTaints := []
    Requests := []
    InstanceTypeOptions := [it0]
    Pods := []
    hostPortUsage := [] }

/-- A scheduler over the unit topology whose single template rejects `pod0`
because of the untolerated taint. -/
def scheduler0 : Scheduler Unit :=
  { newNodes := [], existingNodes := [], machineTemplates := [template0],
    remainingResources := [], instanceTypes := [("default", [it0])],
    daemonOverhead := fun _ => [], topo := (), nodeID := 0,
    simulationMode := false, events := [] }

/-- A prospective node carrying the synthetic hostname requirement plus a
zone requirement, used to exercise finalization. -/
def nodeF : Node :=
  { ProvisionerName := "default"
    Requirements := [⟨labelHostname, ["hostname-placeholder-7"]⟩, ⟨labelTopologyZone, ["z1"]⟩]
    Taints := []
    StartupTaints := []
    Requests := [("cpu", 1)]
    InstanceTypeOptions := [it0]
    Pods := []
    hostPortUsage := [] }

/-- A scheduler that already holds `nodeF` as a prospective node. -/
def schedulerF : Scheduler Unit := { scheduler0 with newNodes := [nodeF] }

/-- C1: for every pod and every prospective node, when `Node.Add` returns an
error — whatever check produced it: taint not tolerated, host-port conflict,
incompatible requirements, topology failure, or no surviving instance type —
the node's observable state (pod list, requirements, accumulated requests,
instance-type options, host-port usage) is exactly what it was before the
call; mutation happens only on the success path. -/
theorem claim1_add_error_leaves_node_unchanged {σ : Type} (T : TopologyImpl σ) (topo : σ)
    (ctx : Ctx) (m : Node) (pod : Pod) (e : String)
    (h : (Node.Add T topo ctx m pod).err = some e) :
    (Node.Add T topo ctx m pod).node.Pods = m.Pods
      ∧ (Node.Add T topo ctx m pod).node.Requirements = m.Requirements
      ∧ (Node.Add T topo ctx m pod).node.Requests = m.Requests
      ∧ (Node.Add T topo ctx m pod).node.InstanceTypeOptions = m.InstanceTypeOptions
      ∧ (Node.Add T topo ctx m pod).node.hostPortUsage = m.hostPortUsage := by
  rw [(nodeAdd_frame T topo ctx m pod e h).1]
  exact ⟨rfl, rfl, rfl, rfl, rfl⟩

/-- Witness for C1 at a concrete input: `node0` carries an untolerated taint,
so `Node.Add` returns the taint error and every observable component of the
node is unchanged. -/
theorem claim1_witness :
    (Node.Add unitTopology () ctxLive node0 pod0).err = some ("did not tolerate taint")
      ∧ ((Node.Add unitTopology () ctxLive node0 pod0).node.Pods = node0.Pods
        ∧ (Node.Add unitTopology () ctxLive node0 pod0).node.Requirements = node0.Requirements
        ∧ (Node.Add unitTopology () ctxLive node0 pod0).node.Requests = node0.Requests
        ∧ (Node.Add unitTopology () ctxLive node0 pod0).node.InstanceTypeOptions
            = node0.InstanceTypeOptions
        ∧ (Node.Add unitTopology () ctxLive node0 pod0).node.hostPortUsage
            = node0.hostPortUsage) :=
  ⟨rfl, claim1_add_error_leaves_node_unchanged unitTopology () ctxLive node0 pod0
    ("did not tolerate taint") rfl⟩

/-- C2 counterexample: at a concrete batch whose only pod fails on every
template and with the supplied context cancelled, `Solve` still returns a nil
error (no cancellation error terminates it) and it does publish an event (the
failure event for the pod), contrary to the claim that a cancelled context
terminates `Solve` with a cancellation error and without publishing events. -/
theorem claim2_counterexample :
    (Scheduler.Solve unitTopology relaxNone 2 scheduler0 ctxCancelled [pod0]).err = none
      ∧ (Scheduler.Solve unitTopology relaxNone 2 scheduler0 ctxCancelled [pod0]).final.events =
        [Event.podFailedToSchedule ("pod-a")
          (some ("incompatible with provisioner default, did not tolerate taint"))] :=
  ⟨rfl, by decide⟩

/-- C2 (amended): `Solve` never surfaces an error — per-pod `add` failures go
to the error map and the relaxation cycle, never out of `Solve` — and the
supplied context is never consulted: a cancelled context neither aborts the
in-progress `Add` nor terminates `Solve`, whose result (nodes, error, and
published events alike) is identical under any two contexts. -/
theorem claim2_solve_nil_error_and_ctx_independent {σ : Type} (T : TopologyImpl σ)
    (relax : Pod → Option Pod) (fuel : Nat) (s : Scheduler σ) (ctx ctx2 : Ctx)
    (pods : List Pod) :
    (Scheduler.Solve T relax fuel s ctx pods).err = none
      ∧ Scheduler.Solve T relax fuel s ctx pods = Scheduler.Solve T relax fuel s ctx2 pods :=
  ⟨rfl, solve_ctx T relax fuel s ctx ctx2 pods⟩

/-- C3: `Scheduler.add` attempts placement exactly in the claimed order —
each existing in-flight node in insertion order; then each prospective node
after sorting the prospective-node list ascending by pod count; then, only
if all of those reject, each machine template in declaration order with the
instance-type list first filtered against the provisioner's remaining
resource budget (when one is configured); the first template whose node
accepts the pod wins and that node is appended to the prospective-node
list. Stated as equality with the spec-side `Scheduler.addSpec`. -/
theorem claim3_add_matches_spec_order {σ : Type} (T : TopologyImpl σ) (ctx : Ctx)
    (s : Scheduler σ) (pod : Pod) :
    Scheduler.add T ctx s pod = Scheduler.addSpec T ctx s pod := by
  unfold Scheduler.add Scheduler.addSpec
  simp only [tryExistingNodes_eq_placeFirst, tryNewNodes_eq_placeFirst,
    tryTemplates_eq_walkTemplates]

/-- C4: `FinalizeScheduling` removes exactly the synthetic hostname key from
a prospective node's requirements — the hostname key is gone, every other
key reads as before, and the pod list, requests, instance-type options,
taints and host-port usage are untouched — and after every completed
`Solve`, every returned prospective node's requirements lack the hostname
key. -/
theorem claim4_finalize_strips_exactly_hostname {σ : Type} (m : Node) (k : String)
    (hk : k ≠ labelHostname) (T : TopologyImpl σ) (relax : Pod → Option Pod) (fuel : Nat)
    (s : Scheduler σ) (ctx : Ctx) (pods : List Pod) (n : Node)
    (hn : n ∈ (Scheduler.Solve T relax fuel s ctx pods).nodes) :
    reqsGet m.FinalizeScheduling.Requirements labelHostname = none
      ∧ reqsGet m.FinalizeScheduling.Requirements k = reqsGet m.Requirements k
      ∧ m.FinalizeScheduling.Pods = m.Pods
      ∧ m.FinalizeScheduling.Requests = m.Requests
      ∧ m.FinalizeScheduling.InstanceTypeOptions = m.InstanceTypeOptions
      ∧ m.FinalizeScheduling.Taints = m.Taints
      ∧ m.FinalizeScheduling.hostPortUsage = m.hostPortUsage
      ∧ reqsGet n.Requirements labelHostname = none := by
  refine ⟨reqsGet_eraseReq_self m.Requirements labelHostname,
    reqsGet_eraseReq_ne m.Requirements labelHostname k hk, rfl, rfl, rfl, rfl, rfl, ?_⟩
  rw [solve_nodes_eq_map_finalize T relax fuel s ctx pods] at hn
  obtain ⟨m0, _, hm0⟩ := List.mem_map.mp hn
  rw [← hm0]
  exact reqsGet_eraseReq_self m0.Requirements labelHostname

/-- Witness for C4 at a concrete input: finalizing `nodeF` (which carries the
hostname and a zone requirement) strips exactly the hostname, and the node
returned by a concrete completed `Solve` over `schedulerF` lacks the
hostname key. -/
theorem claim4_witness :
    (labelTopologyZone ≠ labelHostname
      ∧ nodeF.FinalizeScheduling
          ∈ (Scheduler.Solve unitTopology relaxNone 0 schedulerF ctxLive ([] : List Pod)).nodes)
      ∧ (reqsGet nodeF.FinalizeScheduling.Requirements labelHostname = none
        ∧ reqsGet nodeF.FinalizeScheduling.Requirements labelTopologyZone
            = reqsGet nodeF.Requirements labelTopologyZone
        ∧ nodeF.FinalizeScheduling.Pods = nodeF.Pods
        ∧ nodeF.FinalizeScheduling.Requests = nodeF.Requests
        ∧ nodeF.FinalizeScheduling.InstanceTypeOptions = nodeF.InstanceTypeOptions
        ∧ nodeF.FinalizeScheduling.Taints = nodeF.Taints
        ∧ nodeF.FinalizeScheduling.hostPortUsage = nodeF.hostPortUsage
        ∧ reqsGet nodeF.FinalizeScheduling.Requirements labelHostname = none) :=
  ⟨⟨by decide, by decide⟩,
    claim4_finalize_strips_exactly_hostname nodeF labelTopologyZone (by decide)
      unitTopology relaxNone 0 schedulerF ctxLive [] nodeF.FinalizeScheduling (by decide)⟩
